import Mathlib

/-!
Verification of the ATS_System resume-evaluation pipeline (`main.py`,
`create_template.py`).  The Python source is shallowly embedded: the
pydantic `ResumeEvaluation` schema becomes a record type together with a
validator that mirrors pydantic field validation (required fields with
`ge`/`le` bounds and a `Literal` set), `extract_text` becomes a function
on an abstract file (whose PDF-reader and DOCX-reader views may raise,
modelled with `Except`), and `process_directory` becomes a fold over the
file list accumulating report rows, followed by the pandas
`DataFrame`/serialization step modelled as a deterministic table.
-/

namespace ATS

/-- Raw output of the LLM chain before pydantic validation: every field of
the `ResumeEvaluation` schema may be absent (`none`). -/
structure RawEvaluation where
  name : Option String
  core_experience_legal_ops : Option Int
  core_experience_patent_filing : Option Int
  core_experience_contracts : Option Int
  specialized_knowledge_patent_law : Option Int
  specialized_knowledge_fundraising : Option Int
  skills_legal_drafting : Option Int
  skills_organizational : Option Int
  cultural_fit_founder : Option Int
  cultural_fit_confidentiality : Option Int
  cultural_fit_balance : Option Int
  education_degree : Option Int
  education_certifications : Option Int
  bonus_prior_work : Option Int
  bonus_international_exposure : Option Int
  total_score : Option Int
  recommendation : Option String
  justification : Option String
deriving Repr, DecidableEq

/-- The validated evaluation record, mirroring the pydantic model
`ResumeEvaluation` in `main.py` (lines 11-32). -/
structure ResumeEvaluation where
  name : String
  core_experience_legal_ops : Int
  core_experience_patent_filing : Int
  core_experience_contracts : Int
  specialized_knowledge_patent_law : Int
  specialized_knowledge_fundraising : Int
  skills_legal_drafting : Int
  skills_organizational : Int
  cultural_fit_founder : Int
  cultural_fit_confidentiality : Int
  cultural_fit_balance : Int
  education_degree : Int
  education_certifications : Int
  bonus_prior_work : Int
  bonus_international_exposure : Int
  total_score : Int
  recommendation : String
  justification : String
deriving Repr, DecidableEq

/-- The `Literal` set of the `recommendation` field. -/
def recommendationTiers : List String :=
  ["Strongly Recommended for Interview", "Recommended for Interview",
   "Consider with Caution", "Not Suitable"]

/-- Pydantic validation of one required bounded integer field
(`Field(..., ge=lo, le=hi)`): present and within its declared bound.  A
missing or out-of-bound value is a validation failure (never clamped). -/
def fieldOK (lo hi : Int) (v : Option Int) : Bool :=
  match v with
  | none => false
  | some x => decide (lo ≤ x ∧ x ≤ hi)

/-- Pydantic validation of the `recommendation` `Literal` field: present
and drawn from the enumerated tier set. -/
def tierOK (v : Option String) : Bool :=
  match v with
  | none => false
  | some s => recommendationTiers.contains s

/-- Pydantic validation predicate for a raw LLM response against the
`ResumeEvaluation` schema: every field is required and every numeric field
is checked against its declared `[0, max]` bound (`main.py` lines 15-32). -/
def rawOK (r : RawEvaluation) : Bool :=
  r.name.isSome &&
  fieldOK 0 10 r.core_experience_legal_ops &&
  fieldOK 0 10 r.core_experience_patent_filing &&
  fieldOK 0 10 r.core_experience_contracts &&
  fieldOK 0 10 r.specialized_knowledge_patent_law &&
  fieldOK 0 10 r.specialized_knowledge_fundraising &&
  fieldOK 0 10 r.skills_legal_drafting &&
  fieldOK 0 10 r.skills_organizational &&
  fieldOK 0 5 r.cultural_fit_founder &&
  fieldOK 0 5 r.cultural_fit_confidentiality &&
  fieldOK 0 5 r.cultural_fit_balance &&
  fieldOK 0 5 r.education_degree &&
  fieldOK 0 5 r.education_certifications &&
  fieldOK 0 3 r.bonus_prior_work &&
  fieldOK 0 2 r.bonus_international_exposure &&
  fieldOK 0 100 r.total_score &&
  tierOK r.recommendation &&
  r.justification.isSome

/-- Pydantic parse of a raw LLM response into a `ResumeEvaluation`: accepted
values are passed through unchanged (no clamping, no defaulting) exactly
when every field validates; any violation fails the whole parse.  The
`getD` defaults are unreachable because `rawOK` guarantees presence. -/
def validateEvaluation (r : RawEvaluation) : Option ResumeEvaluation :=
  if rawOK r then
    some ⟨r.name.getD "",
          r.core_experience_legal_ops.getD 0,
          r.core_experience_patent_filing.getD 0,
          r.core_experience_contracts.getD 0,
          r.specialized_knowledge_patent_law.getD 0,
          r.specialized_knowledge_fundraising.getD 0,
          r.skills_legal_drafting.getD 0,
          r.skills_organizational.getD 0,
          r.cultural_fit_founder.getD 0,
          r.cultural_fit_confidentiality.getD 0,
          r.cultural_fit_balance.getD 0,
          r.education_degree.getD 0,
          r.education_certifications.getD 0,
          r.bonus_prior_work.getD 0,
          r.bonus_international_exposure.getD 0,
          r.total_score.getD 0,
          r.recommendation.getD "",
          r.justification.getD ""⟩
  else none

/-- Sum of the 14 per-criterion scores of an evaluation (the quantity the
spec expects `total_score` to equal). -/
def sumScores (e : ResumeEvaluation) : Int :=
  e.core_experience_legal_ops + e.core_experience_patent_filing +
  e.core_experience_contracts + e.specialized_knowledge_patent_law +
  e.specialized_knowledge_fundraising + e.skills_legal_drafting +
  e.skills_organizational + e.cultural_fit_founder +
  e.cultural_fit_confidentiality + e.cultural_fit_balance +
  e.education_degree + e.education_certifications +
  e.bonus_prior_work + e.bonus_international_exposure

/-- One spreadsheet cell: a string, an integer, or blank (pandas `NaN` for
an unfilled template cell). -/
inductive Cell where
  | str (s : String)
  | int (n : Int)
  | blank
deriving Repr, DecidableEq

/-- A resume file handed to the pipeline.  `pdfView` is what
`PdfReader(path).pages` would yield on the file's bytes — a list of pages
whose `extract_text()` is a string or `None` — or the exception the reader
raises; `docxView` likewise for `Document(path).paragraphs`. -/
structure ResumeFile where
  filename : String
  pdfView : Except String (List (Option String))
  docxView : Except String (List String)

/-- Python `str.lower`, character by character. -/
def pyLower (s : String) : String := ⟨s.data.map Char.toLower⟩

/-- Python `str.endswith`, character by character. -/
def pyEndsWith (s suffix : String) : Bool :=
  decide (suffix.data.length ≤ s.data.length) &&
  s.data.drop (s.data.length - suffix.data.length) == suffix.data

/-- Embedding of `ResumeEvaluator.extract_text` (`main.py` lines 169-179).
Dispatch is on the lowercased path suffix; parser exceptions are not caught
here and propagate to the caller (`Except.error`).  A path matching neither
`.pdf` nor `.docx` returns the initial empty accumulator. -/
def extract_text (f : ResumeFile) : Except String String :=
  if pyEndsWith (pyLower f.filename) ".pdf" then
    match f.pdfView with
    | .error e => .error e
    | .ok pages => .ok (pages.foldl (fun text p => text ++ p.getD "") "")
  else if pyEndsWith (pyLower f.filename) ".docx" then
    match f.docxView with
    | .error e => .error e
    | .ok paras => .ok (paras.foldl (fun text p => text ++ (p ++ "\n")) "")
  else
    .ok ""

/-- The LLM chain as an oracle: invoking the prompt on a resume text either
raises (network/LLM error) or yields a raw structured response. -/
abbrev LlmOracle := String → Except String RawEvaluation

/-- Embedding of `ResumeEvaluator.evaluate_resume` (`main.py` lines
181-183): invoke the chain, whose structured-output binding validates the
response against the `ResumeEvaluation` schema; a validation failure is an
exception of the call. -/
def evaluate_resume (llm : LlmOracle) (resume_text : String) :
    Except String ResumeEvaluation :=
  match llm resume_text with
  | .error e => .error e
  | .ok raw =>
    match validateEvaluation raw with
    | some ev => .ok ev
    | none => .error "ValidationError"

/-- The template's column headers, in order, from `create_template.py`. -/
def template_columns : List String :=
  ["Candidate Name",
   "Core Experience: 6–10 years in Legal Ops / IP / Startup-facing roles",
   "Core Experience: Patent filing coordination (India, PCT, USPTO, EPO)",
   "Core Experience: Drafting & enforcing contracts (NDAs, MSAs, investor agreements)",
   "Specialized Knowledge: Indian + International Patent Law & PCT process",
   "Specialized Knowledge: Fundraising legalities (SAFE/convertible notes, investor term sheets)",
   "Skills: Legal drafting, research & litigation support",
   "Skills: Organizational & multitasking (repositories, audit-ready records, multiple priorities)",
   "Cultural Fit: Worked closely with Founders / CXOs",
   "Cultural Fit: Confidentiality, accuracy, maturity",
   "Cultural Fit: Balancing risk governance with innovation speed",
   "Education: LLB/LLM or paralegal/legal qualification",
   "Education: Certifications, memberships, publications in IP/Patent Law",
   "Bonus: Prior work with VC/PE portfolio companies / tech startups",
   "Bonus: International exposure (cross-border filings, global counsel coordination)",
   "Total Score",
   "recommendation",
   "justification"]

/-- The `column_map` dictionary of `ResumeEvaluator.__init__` (`main.py`
lines 148-167): template column header to evaluation field name. -/
def column_map (col : String) : Option String :=
  if col = "Candidate Name" then some "name"
  else if col = "Core Experience: 6–10 years in Legal Ops / IP / Startup-facing roles" then some "core_experience_legal_ops"
  else if col = "Core Experience: Patent filing coordination (India, PCT, USPTO, EPO)" then some "core_experience_patent_filing"
  else if col = "Core Experience: Drafting & enforcing contracts (NDAs, MSAs, investor agreements)" then some "core_experience_contracts"
  else if col = "Specialized Knowledge: Indian + International Patent Law & PCT process" then some "specialized_knowledge_patent_law"
  else if col = "Specialized Knowledge: Fundraising legalities (SAFE/convertible notes, investor term sheets)" then some "specialized_knowledge_fundraising"
  else if col = "Skills: Legal drafting, research & litigation support" then some "skills_legal_drafting"
  else if col = "Skills: Organizational & multitasking (repositories, audit-ready records, multiple priorities)" then some "skills_organizational"
  else if col = "Cultural Fit: Worked closely with Founders / CXOs" then some "cultural_fit_founder"
  else if col = "Cultural Fit: Confidentiality, accuracy, maturity" then some "cultural_fit_confidentiality"
  else if col = "Cultural Fit: Balancing risk governance with innovation speed" then some "cultural_fit_balance"
  else if col = "Education: LLB/LLM or paralegal/legal qualification" then some "education_degree"
  else if col = "Education: Certifications, memberships, publications in IP/Patent Law" then some "education_certifications"
  else if col = "Bonus: Prior work with VC/PE portfolio companies / tech startups" then some "bonus_prior_work"
  else if col = "Bonus: International exposure (cross-border filings, global counsel coordination)" then some "bonus_international_exposure"
  else if col = "Total Score" then some "total_score"
  else if col = "recommendation" then some "recommendation"
  else if col = "justification" then some "justification"
  else none

/-- The `model_dump()` dictionary of an evaluation, as a lookup from field
name to cell value. -/
def resumeField (ev : ResumeEvaluation) (key : String) : Option Cell :=
  if key = "name" then some (.str ev.name)
  else if key = "core_experience_legal_ops" then some (.int ev.core_experience_legal_ops)
  else if key = "core_experience_patent_filing" then some (.int ev.core_experience_patent_filing)
  else if key = "core_experience_contracts" then some (.int ev.core_experience_contracts)
  else if key = "specialized_knowledge_patent_law" then some (.int ev.specialized_knowledge_patent_law)
  else if key = "specialized_knowledge_fundraising" then some (.int ev.specialized_knowledge_fundraising)
  else if key = "skills_legal_drafting" then some (.int ev.skills_legal_drafting)
  else if key = "skills_organizational" then some (.int ev.skills_organizational)
  else if key = "cultural_fit_founder" then some (.int ev.cultural_fit_founder)
  else if key = "cultural_fit_confidentiality" then some (.int ev.cultural_fit_confidentiality)
  else if key = "cultural_fit_balance" then some (.int ev.cultural_fit_balance)
  else if key = "education_degree" then some (.int ev.education_degree)
  else if key = "education_certifications" then some (.int ev.education_certifications)
  else if key = "bonus_prior_work" then some (.int ev.bonus_prior_work)
  else if key = "bonus_international_exposure" then some (.int ev.bonus_international_exposure)
  else if key = "total_score" then some (.int ev.total_score)
  else if key = "recommendation" then some (.str ev.recommendation)
  else if key = "justification" then some (.str ev.justification)
  else none

/-- The per-column fill of the template row (`main.py` lines 195-198): a
column whose `column_map` entry names a field of the dumped response gets
that field's value; other columns keep the template's blank cell. -/
def fill_cell (ev : ResumeEvaluation) (col : String) : Cell :=
  match column_map col with
  | none => .blank
  | some key =>
    match resumeField ev key with
    | none => .blank
    | some v => v

/-- A report row, as the ordered key-value dictionary appended to
`mapped_results`. -/
abbrev Record := List (String × Cell)

/-- The success row for one resume (`main.py` lines 194-200): the filled
template columns in template order, then the `name` column set to the
source filename by `df["name"] = filename`. -/
def row_of_eval (ev : ResumeEvaluation) (filename : String) : Record :=
  template_columns.map (fun col => (col, fill_cell ev col)) ++
    [("name", .str filename)]

/-- The failure row for one resume (`main.py` line 202):
`{"name": filename, "error": str(e)}`. -/
def failureRecord (filename err : String) : Record :=
  [("name", .str filename), ("error", .str err)]

/-- One iteration of the `process_directory` loop body for a single file:
`none` models `continue` (empty extracted text appends nothing), otherwise
the appended row.  The `try`/`except` catches any exception from extraction
or evaluation and turns it into a failure row. -/
def process_file (llm : LlmOracle) (f : ResumeFile) : Option Record :=
  match extract_text f with
  | .error e => some (failureRecord f.filename e)
  | .ok text =>
    if text = "" then none
    else
      match evaluate_resume llm text with
      | .error e => some (failureRecord f.filename e)
      | .ok ev => some (row_of_eval ev f.filename)

/-- One step of the `process_directory` loop: append the file's row to
`mapped_results`, or leave it unchanged on `continue`. -/
def process_step (llm : LlmOracle) (mapped_results : List Record)
    (f : ResumeFile) : List Record :=
  match process_file llm f with
  | some row => mapped_results ++ [row]
  | none => mapped_results

/-- Embedding of `ResumeEvaluator.process_directory` (`main.py` lines
185-205) up to report serialization: the loop over the directory listing
accumulating `mapped_results`. -/
def process_directory (llm : LlmOracle) (files : List ResumeFile) :
    List Record :=
  files.foldl (process_step llm) []

/-- Column index of `pd.DataFrame(mapped_results)`: the union of the rows'
keys, in order of first appearance. -/
def addColsOfRecord (cols : List String) (r : Record) : List String :=
  r.foldl (fun cs kv => if cs.contains kv.1 then cs else cs ++ [kv.1]) cols

/-- Columns of the final `DataFrame` over all accumulated rows. -/
def dataFrameColumns (records : List Record) : List String :=
  records.foldl addColsOfRecord []

/-- One serialized row: each column's value from the row's dictionary,
blank (`NaN`) where the dictionary lacks the key. -/
def projectRow (cols : List String) (r : Record) : List Cell :=
  cols.map (fun c => (r.lookup c).getD .blank)

/-- The serialized report: a header row and data rows. -/
structure Table where
  header : List String
  rows : List (List Cell)
deriving DecidableEq

/-- Embedding of `pd.DataFrame(mapped_results)` followed by
`result_df.to_excel(output_path, index=False)` (`main.py` lines 203-204):
a header of the union columns, then one row per record in sequence order. -/
def write_report (records : List Record) : Table :=
  let cols := dataFrameColumns records
  ⟨cols, records.foldl (fun rows r => rows ++ [projectRow cols r]) []⟩

/-! Concrete fixtures used to instantiate the theorems below. -/

/-- A schema-conformant raw LLM response. -/
def okRaw : RawEvaluation :=
  ⟨some "Jane", some 5, some 5, some 5, some 5, some 5, some 5, some 5,
   some 3, some 3, some 3, some 3, some 3, some 1, some 1,
   some 48, some "Not Suitable", some "ok"⟩

/-- The validated evaluation that `okRaw` parses to. -/
def okEv : ResumeEvaluation :=
  ⟨"Jane", 5, 5, 5, 5, 5, 5, 5, 3, 3, 3, 3, 3, 1, 1,
   48, "Not Suitable", "ok"⟩

/-- A raw response whose reported total disagrees with the sub-score sum
(all criteria 0, total 100). -/
def mismatchRaw : RawEvaluation :=
  ⟨some "Nobody", some 0, some 0, some 0, some 0, some 0, some 0, some 0,
   some 0, some 0, some 0, some 0, some 0, some 0, some 0,
   some 100, some "Strongly Recommended for Interview", some "none"⟩

/-- The validated evaluation that `mismatchRaw` parses to. -/
def mismatchEv : ResumeEvaluation :=
  ⟨"Nobody", 0, 0, 0, 0, 0, 0, 0, 0, 0, 0, 0, 0, 0, 0,
   100, "Strongly Recommended for Interview", "none"⟩

/-- An LLM oracle that always returns `okRaw`. -/
def llm0 : LlmOracle := fun _ => .ok okRaw

/-- An LLM oracle that always returns `mismatchRaw`. -/
def llmMismatch : LlmOracle := fun _ => .ok mismatchRaw

/-- A readable one-page PDF resume. -/
def goodFile : ResumeFile := ⟨"good.pdf", .ok [some "resume text"], .ok []⟩

/-- A second readable one-page PDF resume. -/
def goodFile2 : ResumeFile := ⟨"good2.pdf", .ok [some "text two"], .ok []⟩

/-- A PDF whose reader raises on open. -/
def badFile : ResumeFile := ⟨"bad.pdf", .error "corrupt", .ok []⟩

/-- A PDF with a single image-only page: no extractable text. -/
def imgFile : ResumeFile := ⟨"img.pdf", .ok [none], .ok []⟩

/-- A PDF with no pages: no extractable text. -/
def imgFile2 : ResumeFile := ⟨"img2.pdf", .ok [], .ok []⟩

/-- A corrupt PDF raising the typical PyPDF2 message. -/
def corruptPdf : ResumeFile :=
  ⟨"broken.pdf", .error "EOF marker not found", .ok []⟩

/-- A legacy `.doc` file whose bytes would parse as DOCX with one
paragraph. -/
def docFile : ResumeFile := ⟨"resume.doc", .ok [], .ok ["Hello"]⟩

/-- A legacy `.doc` file on which both readers would raise. -/
def docFile2 : ResumeFile := ⟨"legacy.doc", .error "x", .error "y"⟩

/-- A three-page PDF sample, one page without extractable text. -/
def pdfSample : ResumeFile := ⟨"s.pdf", .ok [some "a", none, some "b"], .ok []⟩

/-- A two-paragraph DOCX sample. -/
def docxSample : ResumeFile := ⟨"s.docx", .ok [], .ok ["p1", "p2"]⟩

/-- Acceptance of one bounded numeric field: the validated value is exactly
the raw value (present, never clamped) and lies in `[0, hi]`. -/
def acceptedInBound (raw : Option Int) (v hi : Int) : Prop :=
  raw = some v ∧ 0 ≤ v ∧ v ≤ hi

instance {ε α : Type} [DecidableEq ε] [DecidableEq α] :
    DecidableEq (Except ε α) := fun a b =>
  match a, b with
  | .error x, .error y =>
    if h : x = y then .isTrue (by rw [h]) else .isFalse (by simp [h])
  | .error _, .ok _ => .isFalse (by simp)
  | .ok _, .error _ => .isFalse (by simp)
  | .ok x, .ok y =>
    if h : x = y then .isTrue (by rw [h]) else .isFalse (by simp [h])

/-! Helper lemmas. -/

lemma fieldOK_elim {hi : Int} {o : Option Int} (h : fieldOK 0 hi o = true) :
    acceptedInBound o (o.getD 0) hi := by
  cases o with
  | none => simp [fieldOK] at h
  | some x =>
    simp only [fieldOK, decide_eq_true_eq] at h
    exact ⟨rfl, h.1, h.2⟩

lemma validate_some_elim {r : RawEvaluation} {ev : ResumeEvaluation}
    (h : validateEvaluation r = some ev) :
    rawOK r = true ∧
      ev = ⟨r.name.getD "",
        r.core_experience_legal_ops.getD 0,
        r.core_experience_patent_filing.getD 0,
        r.core_experience_contracts.getD 0,
        r.specialized_knowledge_patent_law.getD 0,
        r.specialized_knowledge_fundraising.getD 0,
        r.skills_legal_drafting.getD 0,
        r.skills_organizational.getD 0,
        r.cultural_fit_founder.getD 0,
        r.cultural_fit_confidentiality.getD 0,
        r.cultural_fit_balance.getD 0,
        r.education_degree.getD 0,
        r.education_certifications.getD 0,
        r.bonus_prior_work.getD 0,
        r.bonus_international_exposure.getD 0,
        r.total_score.getD 0,
        r.recommendation.getD "",
        r.justification.getD ""⟩ := by
  by_cases hr : rawOK r
  · refine ⟨hr, ?_⟩
    rw [validateEvaluation, if_pos hr, Option.some.injEq] at h
    exact h.symm
  · rw [validateEvaluation, if_neg hr] at h
    exact absurd h (by simp)

lemma rawOK_elim {r : RawEvaluation} (h : rawOK r = true) :
    fieldOK 0 10 r.core_experience_legal_ops = true ∧
    fieldOK 0 10 r.core_experience_patent_filing = true ∧
    fieldOK 0 10 r.core_experience_contracts = true ∧
    fieldOK 0 10 r.specialized_knowledge_patent_law = true ∧
    fieldOK 0 10 r.specialized_knowledge_fundraising = true ∧
    fieldOK 0 10 r.skills_legal_drafting = true ∧
    fieldOK 0 10 r.skills_organizational = true ∧
    fieldOK 0 5 r.cultural_fit_founder = true ∧
    fieldOK 0 5 r.cultural_fit_confidentiality = true ∧
    fieldOK 0 5 r.cultural_fit_balance = true ∧
    fieldOK 0 5 r.education_degree = true ∧
    fieldOK 0 5 r.education_certifications = true ∧
    fieldOK 0 3 r.bonus_prior_work = true ∧
    fieldOK 0 2 r.bonus_international_exposure = true ∧
    fieldOK 0 100 r.total_score = true := by
  simp only [rawOK, Bool.and_eq_true] at h
  tauto

lemma validate_fields {r : RawEvaluation} {ev : ResumeEvaluation}
    (h : validateEvaluation r = some ev) :
    acceptedInBound r.core_experience_legal_ops ev.core_experience_legal_ops 10 ∧
    acceptedInBound r.core_experience_patent_filing ev.core_experience_patent_filing 10 ∧
    acceptedInBound r.core_experience_contracts ev.core_experience_contracts 10 ∧
    acceptedInBound r.specialized_knowledge_patent_law ev.specialized_knowledge_patent_law 10 ∧
    acceptedInBound r.specialized_knowledge_fundraising ev.specialized_knowledge_fundraising 10 ∧
    acceptedInBound r.skills_legal_drafting ev.skills_legal_drafting 10 ∧
    acceptedInBound r.skills_organizational ev.skills_organizational 10 ∧
    acceptedInBound r.cultural_fit_founder ev.cultural_fit_founder 5 ∧
    acceptedInBound r.cultural_fit_confidentiality ev.cultural_fit_confidentiality 5 ∧
    acceptedInBound r.cultural_fit_balance ev.cultural_fit_balance 5 ∧
    acceptedInBound r.education_degree ev.education_degree 5 ∧
    acceptedInBound r.education_certifications ev.education_certifications 5 ∧
    acceptedInBound r.bonus_prior_work ev.bonus_prior_work 3 ∧
    acceptedInBound r.bonus_international_exposure ev.bonus_international_exposure 2 ∧
    acceptedInBound r.total_score ev.total_score 100 := by
  obtain ⟨hr, hev⟩ := validate_some_elim h
  obtain ⟨h1, h2, h3, h4, h5, h6, h7, h8, h9, h10, h11, h12, h13, h14, h15⟩ :=
    rawOK_elim hr
  subst hev
  exact ⟨fieldOK_elim h1, fieldOK_elim h2, fieldOK_elim h3, fieldOK_elim h4,
    fieldOK_elim h5, fieldOK_elim h6, fieldOK_elim h7, fieldOK_elim h8,
    fieldOK_elim h9, fieldOK_elim h10, fieldOK_elim h11, fieldOK_elim h12,
    fieldOK_elim h13, fieldOK_elim h14, fieldOK_elim h15⟩

lemma process_foldl (llm : LlmOracle) :
    ∀ (files : List ResumeFile) (acc : List Record),
      files.foldl (process_step llm) acc =
        acc ++ files.filterMap (process_file llm) := by
  intro files
  induction files with
  | nil => intro acc; simp
  | cons f fs ih =>
    intro acc
    rw [List.foldl_cons, List.filterMap_cons]
    cases hf : process_file llm f with
    | none => rw [process_step, hf, ih]
    | some r => rw [process_step, hf, ih]; simp

lemma process_directory_eq (llm : LlmOracle) (files : List ResumeFile) :
    process_directory llm files = files.filterMap (process_file llm) := by
  simpa [process_directory] using process_foldl llm files []

lemma foldl_push_eq_map {α β : Type} (g : α → β) :
    ∀ (l : List α) (acc : List β),
      l.foldl (fun a x => a ++ [g x]) acc = acc ++ l.map g := by
  intro l
  induction l with
  | nil => intro acc; simp
  | cons x xs ih => intro acc; simp [List.foldl_cons, ih]

lemma foldl_append_join {α : Type} (g : α → String) :
    ∀ (l : List α) (s : String),
      l.foldl (fun t x => t ++ g x) s = s ++ String.join (l.map g) := by
  intro l
  induction l with
  | nil => intro s; apply String.ext; simp
  | cons x xs ih =>
    intro s
    rw [List.foldl_cons, ih (s ++ g x)]
    apply String.ext
    simp

lemma addColsOfRecord_cons (cols : List String) (kv : String × Cell) (r : Record) :
    addColsOfRecord cols (kv :: r) =
      addColsOfRecord (if cols.contains kv.1 then cols else cols ++ [kv.1]) r := by
  rw [addColsOfRecord, addColsOfRecord, List.foldl_cons]

lemma mem_addColsOfRecord_of_mem {k : String} :
    ∀ (r : Record) (cols : List String), k ∈ cols → k ∈ addColsOfRecord cols r := by
  intro r
  induction r with
  | nil => intro cols h; simpa [addColsOfRecord] using h
  | cons kv r ih =>
    intro cols h
    rw [addColsOfRecord_cons]
    apply ih
    split
    · exact h
    · exact List.mem_append_left _ h

lemma mem_addColsOfRecord_of_key {k : String} {v : Cell} :
    ∀ (r : Record) (cols : List String), (k, v) ∈ r → k ∈ addColsOfRecord cols r := by
  intro r
  induction r with
  | nil => intro cols h; simp at h
  | cons kv r ih =>
    intro cols h
    rw [addColsOfRecord_cons]
    rcases List.mem_cons.mp h with h | h
    · apply mem_addColsOfRecord_of_mem
      split
      · rename_i hc
        have hm : kv.1 ∈ cols := by simpa using hc
        simpa [← h] using hm
      · apply List.mem_append_right
        simp [← h]
    · exact ih _ h

lemma mem_dataFrameColumns_foldl {k : String} {v : Cell} :
    ∀ (records : List Record) (cols : List String) (r : Record),
      (r ∈ records ∧ (k, v) ∈ r) ∨ k ∈ cols →
      k ∈ records.foldl addColsOfRecord cols := by
  intro records
  induction records with
  | nil =>
    intro cols r h
    rcases h with ⟨h, _⟩ | h
    · simp at h
    · simpa using h
  | cons r0 rs ih =>
    intro cols r h
    rw [List.foldl_cons]
    rcases h with ⟨hr, hk⟩ | h
    · rcases List.mem_cons.mp hr with h | h
      · exact ih _ r (Or.inr (mem_addColsOfRecord_of_key r0 cols (h ▸ hk)))
      · exact ih _ r (Or.inl ⟨h, hk⟩)
    · exact ih _ r (Or.inr (mem_addColsOfRecord_of_mem r0 cols h))

/-! Claim theorems. -/

/-- C1: every numeric field of an accepted `ResumeEvaluation` lies in its
criterion's declared closed bound `[0, max]`, and the accepted value is
exactly the raw LLM value (present, never clamped); contrapositively, a raw
response with a missing or out-of-bound numeric field is rejected by the
schema validation, since acceptance forces every field to be present and in
bound. -/
theorem validation_bounds_C1 (r : RawEvaluation) (ev : ResumeEvaluation)
    (h : validateEvaluation r = some ev) :
    acceptedInBound r.core_experience_legal_ops ev.core_experience_legal_ops 10 ∧
    acceptedInBound r.core_experience_patent_filing ev.core_experience_patent_filing 10 ∧
    acceptedInBound r.core_experience_contracts ev.core_experience_contracts 10 ∧
    acceptedInBound r.specialized_knowledge_patent_law ev.specialized_knowledge_patent_law 10 ∧
    acceptedInBound r.specialized_knowledge_fundraising ev.specialized_knowledge_fundraising 10 ∧
    acceptedInBound r.skills_legal_drafting ev.skills_legal_drafting 10 ∧
    acceptedInBound r.skills_organizational ev.skills_organizational 10 ∧
    acceptedInBound r.cultural_fit_founder ev.cultural_fit_founder 5 ∧
    acceptedInBound r.cultural_fit_confidentiality ev.cultural_fit_confidentiality 5 ∧
    acceptedInBound r.cultural_fit_balance ev.cultural_fit_balance 5 ∧
    acceptedInBound r.education_degree ev.education_degree 5 ∧
    acceptedInBound r.education_certifications ev.education_certifications 5 ∧
    acceptedInBound r.bonus_prior_work ev.bonus_prior_work 3 ∧
    acceptedInBound r.bonus_international_exposure ev.bonus_international_exposure 2 ∧
    acceptedInBound r.total_score ev.total_score 100 :=
  validate_fields h

/-- Witness for C1 at the concrete response `okRaw`. -/
theorem validation_bounds_C1_witness :
    validateEvaluation okRaw = some okEv ∧
    acceptedInBound okRaw.core_experience_legal_ops okEv.core_experience_legal_ops 10 :=
  have h : validateEvaluation okRaw = some okEv := by decide
  ⟨h, (validation_bounds_C1 okRaw okEv h).1⟩

/-- C2: an exception during extraction or evaluation of one file makes the
batch append a failure record carrying that file's name and the error
message, and the remaining files before and after it are still processed:
no per-file failure aborts the batch. -/
theorem per_file_failure_isolated_C2 (llm : LlmOracle) (pre post : List ResumeFile)
    (f : ResumeFile) (e : String)
    (h : extract_text f = Except.error e ∨
         ∃ t, extract_text f = Except.ok t ∧ t ≠ "" ∧
           evaluate_resume llm t = Except.error e) :
    process_directory llm (pre ++ f :: post) =
      process_directory llm pre ++
        failureRecord f.filename e :: process_directory llm post := by
  have hf : process_file llm f = some (failureRecord f.filename e) := by
    rcases h with h | ⟨t, ht, hne, he⟩
    · simp [process_file, h]
    · simp [process_file, ht, hne, he]
  rw [process_directory_eq, process_directory_eq, process_directory_eq,
    List.filterMap_append, List.filterMap_cons, hf]

/-- Witness for C2: a corrupt PDF between two good ones. -/
theorem per_file_failure_isolated_C2_witness :
    extract_text badFile = Except.error "corrupt" ∧
    process_directory llm0 ([goodFile] ++ badFile :: [goodFile2]) =
      process_directory llm0 [goodFile] ++
        failureRecord badFile.filename "corrupt" ::
          process_directory llm0 [goodFile2] :=
  ⟨by decide,
   per_file_failure_isolated_C2 llm0 [goodFile] [goodFile2] badFile "corrupt"
     (Or.inl (by decide))⟩

/-- C3 counterexample: a one-file batch whose extracted text is empty
yields zero output rows — no sentinel failure record is appended, so a
batch of N files does not always yield N rows. -/
theorem empty_text_no_sentinel_counterexample_C3 :
    extract_text imgFile = Except.ok "" ∧
    process_directory llm0 [imgFile] = [] ∧
    (process_directory llm0 [imgFile]).length ≠ [imgFile].length :=
  ⟨by decide, by decide, by decide⟩

/-- C3 amended: a file whose extracted text is empty is skipped by
`continue` — the evaluator is not invoked (the result is independent of the
oracle) and nothing is appended for it, while the surrounding files are
still processed. -/
theorem empty_text_skipped_C3 (llm : LlmOracle) (pre post : List ResumeFile)
    (f : ResumeFile) (h : extract_text f = Except.ok "") :
    process_directory llm (pre ++ f :: post) =
      process_directory llm pre ++ process_directory llm post := by
  have hf : process_file llm f = none := by simp [process_file, h]
  rw [process_directory_eq, process_directory_eq, process_directory_eq,
    List.filterMap_append, List.filterMap_cons, hf]

/-- Witness for the amended C3 at a pageless PDF. -/
theorem empty_text_skipped_C3_witness :
    extract_text imgFile2 = Except.ok "" ∧
    process_directory llm0 ([goodFile] ++ imgFile2 :: []) =
      process_directory llm0 [goodFile] ++ process_directory llm0 [] :=
  ⟨by decide, empty_text_skipped_C3 llm0 [goodFile] [] imgFile2 (by decide)⟩

/-- C4 counterexample: on a corrupt PDF, `extract_text` does not return
empty text — the reader's exception propagates out of it. -/
theorem extract_failure_counterexample_C4 :
    extract_text corruptPdf = Except.error "EOF marker not found" ∧
    extract_text corruptPdf ≠ Except.ok "" :=
  ⟨by decide, by decide⟩

/-- C4 amended: on an extraction failure for a matched extension,
`extract_text` raises the parser's exception past its own boundary; the
failure reason reaches the caller because `process_directory` catches the
exception and turns it into that file's failure record. -/
theorem extract_failure_raises_C4 (f : ResumeFile) (e : String)
    (h : (pyEndsWith (pyLower f.filename) ".pdf" = true ∧
          f.pdfView = Except.error e) ∨
         (pyEndsWith (pyLower f.filename) ".pdf" = false ∧
          pyEndsWith (pyLower f.filename) ".docx" = true ∧
          f.docxView = Except.error e)) :
    extract_text f = Except.error e ∧
    ∀ llm, process_file llm f = some (failureRecord f.filename e) := by
  have hx : extract_text f = Except.error e := by
    rcases h with ⟨h1, h2⟩ | ⟨h1, h2, h3⟩
    · rw [extract_text, if_pos h1, h2]
    · rw [extract_text, if_neg (by simp [h1]), if_pos h2, h3]
  exact ⟨hx, fun llm => by simp [process_file, hx]⟩

/-- Witness for the amended C4 at the corrupt PDF. -/
theorem extract_failure_raises_C4_witness :
    (pyEndsWith (pyLower corruptPdf.filename) ".pdf" = true ∧
      corruptPdf.pdfView = Except.error "EOF marker not found") ∧
    extract_text corruptPdf = Except.error "EOF marker not found" ∧
    process_file llm0 corruptPdf =
      some (failureRecord corruptPdf.filename "EOF marker not found") :=
  have hp : pyEndsWith (pyLower corruptPdf.filename) ".pdf" = true ∧
      corruptPdf.pdfView = Except.error "EOF marker not found" :=
    ⟨by decide, by decide⟩
  have h := extract_failure_raises_C4 corruptPdf "EOF marker not found" (Or.inl hp)
  ⟨hp, h.1, h.2 llm0⟩

/-- C5: on a readable PDF, `extract_text` returns the page texts joined in
document order with `None` pages contributing the empty string; on a
readable DOCX, it returns the paragraph texts joined in document order,
each followed by one newline. -/
theorem extract_text_concat_C5 :
    (∀ (f : ResumeFile) (pages : List (Option String)),
        pyEndsWith (pyLower f.filename) ".pdf" = true →
        f.pdfView = Except.ok pages →
        extract_text f =
          Except.ok (String.join (pages.map (fun p => p.getD "")))) ∧
    (∀ (f : ResumeFile) (paras : List String),
        pyEndsWith (pyLower f.filename) ".pdf" = false →
        pyEndsWith (pyLower f.filename) ".docx" = true →
        f.docxView = Except.ok paras →
        extract_text f =
          Except.ok (String.join (paras.map (fun p => p ++ "\n")))) := by
  constructor
  · intro f pages h1 h2
    rw [extract_text, if_pos h1, h2]
    dsimp only
    rw [foldl_append_join (fun p : Option String => p.getD "")]
    apply congrArg
    apply String.ext
    simp
  · intro f paras h1 h2 h3
    rw [extract_text, if_neg (by simp [h1]), if_pos h2, h3]
    dsimp only
    rw [foldl_append_join (fun p => p ++ "\n")]
    apply congrArg
    apply String.ext
    simp

/-- Witness for C5 on a three-page PDF and a two-paragraph DOCX. -/
theorem extract_text_concat_C5_witness :
    extract_text pdfSample =
      Except.ok (String.join ([some "a", none, some "b"].map (fun p => p.getD ""))) ∧
    extract_text docxSample =
      Except.ok (String.join ((["p1", "p2"] : List String).map (fun p => p ++ "\n"))) :=
  ⟨extract_text_concat_C5.1 pdfSample [some "a", none, some "b"] (by decide) (by decide),
   extract_text_concat_C5.2 docxSample ["p1", "p2"] (by decide) (by decide) (by decide)⟩

/-- C6 counterexample: a `.doc` file is not processed by DOCX parsing — the
paragraph concatenation of its DOCX view would be `"Hello\n"`, but
`extract_text` returns `""` without consulting any parser. -/
theorem doc_not_docx_parsed_counterexample_C6 :
    extract_text docFile = Except.ok "" ∧
    docFile.docxView = Except.ok ["Hello"] ∧
    Except.ok (String.join ((["Hello"] : List String).map (fun p => p ++ "\n"))) ≠
      (Except.ok "" : Except String String) :=
  ⟨by decide, by decide, by decide⟩

/-- C6 amended: a filename matching neither the `.pdf` nor the `.docx`
extension branch — as is the case for legacy `.doc` names — makes
`extract_text` return empty text unconditionally, whatever the file's
contents, so it never parses and never crashes on such files. -/
theorem doc_extension_empty_C6 (f : ResumeFile)
    (h1 : pyEndsWith (pyLower f.filename) ".pdf" = false)
    (h2 : pyEndsWith (pyLower f.filename) ".docx" = false) :
    extract_text f = Except.ok "" := by
  rw [extract_text, if_neg (by simp [h1]), if_neg (by simp [h2])]

/-- Witness for the amended C6 at a `.doc` file on which both readers would
raise: still empty text, no crash. -/
theorem doc_extension_empty_C6_witness :
    pyEndsWith (pyLower docFile2.filename) ".pdf" = false ∧
    pyEndsWith (pyLower docFile2.filename) ".docx" = false ∧
    extract_text docFile2 = Except.ok "" :=
  ⟨by decide, by decide, doc_extension_empty_C6 docFile2 (by decide) (by decide)⟩

/-- C7 counterexample: the evaluator accepts a response whose
`total_score` (100) differs from the sum of its 14 per-criterion scores
(0) — no internal-consistency check is performed. -/
theorem total_score_unchecked_counterexample_C7 :
    evaluate_resume llmMismatch "resume" = Except.ok mismatchEv ∧
    sumScores mismatchEv = 0 ∧ mismatchEv.total_score = 100 :=
  ⟨by decide, by decide, by decide⟩

/-- C7 amended: every accepted evaluation has `total_score` within
`[0, 100]` and its sub-score sum within `[0, 100]`, but the two are not
checked against each other. -/
theorem total_score_bounds_C7 (r : RawEvaluation) (ev : ResumeEvaluation)
    (h : validateEvaluation r = some ev) :
    acceptedInBound r.total_score ev.total_score 100 ∧
    0 ≤ sumScores ev ∧ sumScores ev ≤ 100 := by
  have hf := validate_fields h
  obtain ⟨⟨_, a1, b1⟩, ⟨_, a2, b2⟩, ⟨_, a3, b3⟩, ⟨_, a4, b4⟩, ⟨_, a5, b5⟩,
    ⟨_, a6, b6⟩, ⟨_, a7, b7⟩, ⟨_, a8, b8⟩, ⟨_, a9, b9⟩, ⟨_, a10, b10⟩,
    ⟨_, a11, b11⟩, ⟨_, a12, b12⟩, ⟨_, a13, b13⟩, ⟨_, a14, b14⟩, htot⟩ := hf
  refine ⟨htot, ?_, ?_⟩ <;> (unfold sumScores; omega)

/-- Witness for the amended C7 at the mismatched response, which is
nevertheless accepted. -/
theorem total_score_bounds_C7_witness :
    validateEvaluation mismatchRaw = some mismatchEv ∧
    (acceptedInBound mismatchRaw.total_score mismatchEv.total_score 100 ∧
      0 ≤ sumScores mismatchEv ∧ sumScores mismatchEv ≤ 100) :=
  have h : validateEvaluation mismatchRaw = some mismatchEv := by decide
  ⟨h, total_score_bounds_C7 mismatchRaw mismatchEv h⟩

/-- C8: when any accumulated record carries an `error` key, the written
report's header contains the `error` column — the writer never drops it. -/
theorem error_column_kept_C8 (records : List Record) (r : Record) (v : Cell)
    (h1 : r ∈ records) (h2 : ("error", v) ∈ r) :
    "error" ∈ (write_report records).header := by
  have hh : (write_report records).header = dataFrameColumns records := rfl
  rw [hh, dataFrameColumns]
  exact mem_dataFrameColumns_foldl records [] r (Or.inl ⟨h1, h2⟩)

/-- Witness for C8 on the batch containing only the corrupt PDF. -/
theorem error_column_kept_C8_witness :
    failureRecord "bad.pdf" "corrupt" ∈ process_directory llm0 [badFile] ∧
    ("error", Cell.str "corrupt") ∈ failureRecord "bad.pdf" "corrupt" ∧
    "error" ∈ (write_report (process_directory llm0 [badFile])).header :=
  have h1 : failureRecord "bad.pdf" "corrupt" ∈ process_directory llm0 [badFile] := by
    decide
  have h2 : ("error", Cell.str "corrupt") ∈ failureRecord "bad.pdf" "corrupt" := by
    decide
  ⟨h1, h2, error_column_kept_C8 (process_directory llm0 [badFile])
    (failureRecord "bad.pdf" "corrupt") (.str "corrupt") h1 h2⟩

/-- C9: the written report is a function of the record sequence alone — so
re-running the writer on the same sequence produces an identical table —
with a fixed header (the first-appearance column union) and one row per
record, in exactly the orchestrator's output order. -/
theorem report_deterministic_C9 (records : List Record) :
    write_report records =
      ⟨dataFrameColumns records,
        records.map (projectRow (dataFrameColumns records))⟩ := by
  unfold write_report
  dsimp only
  rw [foldl_push_eq_map]
  simp

/-- C10: every record appended by the batch loop — success or failure —
has its `name` key equal to the source filename (for successes the
`df["name"] = filename` assignment overwrites nothing else: the LLM's
candidate name is reachable only under the `Candidate Name` template
column). -/
theorem name_is_filename_C10 (llm : LlmOracle) (f : ResumeFile) (r : Record)
    (h : process_file llm f = some r) :
    List.lookup "name" r = some (.str f.filename) ∧
    (∀ t ev, extract_text f = Except.ok t → evaluate_resume llm t = Except.ok ev →
      List.lookup "Candidate Name" r = some (.str ev.name)) := by
  rcases hx : extract_text f with e | t
  · simp only [process_file, hx] at h
    obtain rfl : failureRecord f.filename e = r := by simpa using h
    exact ⟨rfl, fun t ev hok _ => absurd hok (by simp)⟩
  · simp only [process_file, hx] at h
    by_cases ht : t = ""
    · rw [if_pos ht] at h
      exact absurd h (by simp)
    · rw [if_neg ht] at h
      rcases he : evaluate_resume llm t with e2 | ev0
      · simp only [he] at h
        obtain rfl : failureRecord f.filename e2 = r := by simpa using h
        refine ⟨rfl, fun t' ev hok heval => ?_⟩
        obtain rfl : t = t' := by simpa using hok
        rw [he] at heval
        exact absurd heval (by simp)
      · simp only [he] at h
        obtain rfl : row_of_eval ev0 f.filename = r := by simpa using h
        refine ⟨rfl, fun t' ev hok heval => ?_⟩
        obtain rfl : t = t' := by simpa using hok
        rw [he] at heval
        obtain rfl : ev0 = ev := by simpa using heval
        rfl

/-- Witness for C10 on a successfully evaluated resume. -/
theorem name_is_filename_C10_witness :
    process_file llm0 goodFile = some (row_of_eval okEv "good.pdf") ∧
    List.lookup "name" (row_of_eval okEv "good.pdf") =
      some (.str goodFile.filename) :=
  have h : process_file llm0 goodFile = some (row_of_eval okEv "good.pdf") := by
    decide
  ⟨h, (name_is_filename_C10 llm0 goodFile (row_of_eval okEv "good.pdf") h).1⟩

end ATS
